import Mathlib

/-!
Verification development for the iatoolkit document-ingestion subsystem.

Shallow embedding, translated from the Python sources:
  * `src/iatoolkit/services/parsers/provider_resolver.py` (ParsingProviderResolver)
  * `src/iatoolkit/services/ingestor_service.py` (IngestorService.load_sources,
    IngestorService.sync_sources_from_yaml, IngestorService._get_base_connector_config)
  * `src/iatoolkit/services/load_documents_service.py`
    (LoadDocumentsService.sync_sources_from_yaml, LoadDocumentsService._get_base_connector_config)
and, for the ingestion-runner contract whose implementation file
(`iatoolkit/services/ingestion_runner_service.py`) is not part of the source
snapshot, a model built from the specification's `run_ingestion` contract.

Python dictionaries holding YAML configuration are embedded as association
lists over a small dynamic-value type `PyVal`; repositories become explicit
state passing; exceptions become `Except`.
-/

namespace IAToolkit

/-! ## Parsing provider resolution
Embeds `ParsingProviderResolver` from
`src/iatoolkit/services/parsers/provider_resolver.py`. -/

/-- A parse request, as used by `ParsingProviderResolver.resolve`
(`company_short_name`, `collection_name`; the file's name stands in for the
file-type information that a provider's `supports` predicate inspects). -/
structure ParseRequest where
  company_short_name : String
  collection_name : Option String
  filename : String
deriving Repr, DecidableEq

/-- A parsing provider as the resolver observes it: the `enabled` flag and
the `supports(request)` predicate, plus the registry name it was fetched
under (so theorems can talk about which provider was returned). -/
structure ParsingProvider where
  registry_name : String
  enabled : Bool
  supports : ParseRequest → Bool

/-- A persisted collection record; the resolver reads only its
`parser_provider` column.  Python's `getattr(collection, "parser_provider",
None)` together with the `isinstance(..., str)` guard means a missing or
non-string value acts as `none`. -/
structure CollectionRecord where
  parser_provider : Option String

/-- The slice of the company `knowledge_base` configuration the resolver
reads: the `parsing_provider` key.  The `isinstance(global_provider, str)`
guard in the Python code means a present non-string value acts as `none`. -/
structure KbParsingConfig where
  parsing_provider : Option String

/-- The resolver's injected collaborators: `config_service.get_configuration`,
`document_repo.get_collection_by_name` and `provider_factory.get_provider`. -/
structure ResolverEnv where
  get_configuration : String → Option KbParsingConfig
  get_collection_by_name : String → String → Option CollectionRecord
  get_provider : String → ParsingProvider

/-- Python's `str.strip()`: drop leading and trailing whitespace. -/
def pyStrip (s : String) : String :=
  ⟨((s.data.dropWhile Char.isWhitespace).reverse.dropWhile
      Char.isWhitespace).reverse⟩

/-- Python's `str.lower()`: lower-case every character. -/
def pyLower (s : String) : String :=
  ⟨s.data.map Char.toLower⟩

/-- `ParsingProviderResolver._normalize_provider_alias`: the alias table maps
`"document_service"` to `"legacy"` and leaves every other name unchanged. -/
def normalizeProviderAlias (provider_name : String) : String :=
  if provider_name = "document_service" then "legacy" else provider_name

/-- `ParsingProviderResolver._resolve_collection_provider_from_db`:
`None`/empty collection name gives `None`; otherwise look the collection up,
and return its `parser_provider` stripped and lower-cased when it is a
non-blank string, else `None`. -/
def resolveCollectionProviderFromDb (env : ResolverEnv)
    (company_short_name : String) (collection_name : Option String) :
    Option String :=
  match collection_name with
  | none => none
  | some n =>
    if n = "" then none
    else
      match env.get_collection_by_name company_short_name n with
      | none => none
      | some collection =>
        match collection.parser_provider with
        | none => none
        | some p => if pyStrip p ≠ "" then some (pyLower (pyStrip p)) else none

/-- `ParsingProviderResolver._resolve_provider_name_for_request`: the
per-collection provider wins; else the company-level `parsing_provider`
(stripped, lower-cased) when non-blank; else `"auto"`. -/
def resolveProviderNameForRequest (env : ResolverEnv)
    (kb_config : KbParsingConfig) (request : ParseRequest) : String :=
  match resolveCollectionProviderFromDb env
      request.company_short_name request.collection_name with
  | some collection_provider => collection_provider
  | none =>
    match kb_config.parsing_provider with
    | some global_provider =>
      if pyStrip global_provider ≠ "" then pyLower (pyStrip global_provider)
      else "auto"
    | none => "auto"

/-- `ParsingProviderResolver.resolve`: fetch the `knowledge_base`
configuration (`or {}` makes an absent configuration behave as empty),
resolve the provider name, and either run the `"auto"` selection
(docling when enabled and supporting the request, else legacy) or fetch the
named provider after alias normalization. -/
def resolve (env : ResolverEnv) (request : ParseRequest) : ParsingProvider :=
  let kb_config :=
    (env.get_configuration request.company_short_name).getD ⟨none⟩
  let configured_provider := resolveProviderNameForRequest env kb_config request
  if configured_provider = "auto" then
    let docling_provider := env.get_provider "docling"
    if docling_provider.enabled && docling_provider.supports request then
      docling_provider
    else env.get_provider "legacy"
  else env.get_provider (normalizeProviderAlias configured_provider)

/-- The configuration `resolve` actually uses for a request (the
`get_configuration ... or {}` step). -/
def kbConfigOf (env : ResolverEnv) (request : ParseRequest) : KbParsingConfig :=
  (env.get_configuration request.company_short_name).getD ⟨none⟩

/-! ## Dynamic Python values
The YAML configuration dictionaries handled by `sync_sources_from_yaml` and
`_get_base_connector_config` are embedded as a small dynamic-value type:
a value is `None`, a string, a boolean, an integer, or a dictionary
(association list, insertion-ordered, keys distinct as produced by YAML).
`d.get(k)`/`d.get(k, default)` on a non-dictionary raises `AttributeError`,
embedded as `Except.error`. -/

inductive PyVal where
  | pynone
  | pystr (s : String)
  | pybool (b : Bool)
  | pyint (n : Int)
  | pydict (entries : List (String × PyVal))

/-- Association-list lookup (first binding wins, as in a Python dict whose
keys are distinct). -/
def assocLookup {α : Type} : List (String × α) → String → Option α
  | [], _ => none
  | (k, v) :: rest, key => if k = key then some v else assocLookup rest key

/-- Python truthiness for the embedded values. -/
def PyVal.truthy : PyVal → Bool
  | .pynone => false
  | .pystr s => s ≠ ""
  | .pybool b => b
  | .pyint n => n ≠ 0
  | .pydict xs => ¬ xs.isEmpty

/-- `d.get(key)`: `None` when absent; `AttributeError` when `d` is not a
dictionary. -/
def PyVal.get : PyVal → String → Except String PyVal
  | .pydict xs, key => .ok ((assocLookup xs key).getD .pynone)
  | _, _ => .error "AttributeError"

/-- `d.get(key, default)`: the stored value when the key is present (even a
falsy one), the default otherwise; `AttributeError` when `d` is not a
dictionary. -/
def PyVal.getDefault : PyVal → String → PyVal → Except String PyVal
  | .pydict xs, key, dflt => .ok ((assocLookup xs key).getD dflt)
  | _, _, _ => .error "AttributeError"

/-- `xs.copy()` followed by `xs.update(ys)` for dictionaries with distinct
keys in `ys`: existing keys are overwritten in place, new keys appended. -/
def dictUpdate (xs ys : List (String × PyVal)) : List (String × PyVal) :=
  (xs.map fun kv => (kv.1, (assocLookup ys kv.1).getD kv.2)) ++
    ys.filter fun kv => (assocLookup xs kv.1).isNone

/-! ## Ingestion data model shared by the services -/

/-- `IngestionStatus` enum from `iatoolkit.repositories.models`. -/
inductive IngestionStatus where
  | ACTIVE
  | RUNNING
  | ERROR
deriving Repr, DecidableEq

/-- `IngestionSourceType` enum from `iatoolkit.repositories.models`. -/
inductive IngestionSourceType where
  | LOCAL
  | S3
deriving Repr, DecidableEq

/-- `Company` model: the fields the ingestion services read. -/
structure Company where
  id : Nat
  short_name : String
deriving Repr, DecidableEq

/-- `IAToolkitException.ErrorType` members used by the ingestion services
(the specification names the lookup failure NOT_FOUND). -/
inductive ErrorType where
  | PARAM_NOT_FILLED
  | NOT_FOUND
  | INVALID_STATE
  | CONFIG_ERROR
  | LOAD_DOCUMENT_ERROR
deriving Repr, DecidableEq

/-- A raised Python exception: an `IAToolkitException` with its error type
and message, or a plain exception with its message. -/
inductive PyError where
  | toolkit (error_type : ErrorType) (msg : String)
  | exc (msg : String)
deriving Repr, DecidableEq

/-! ## `_get_base_connector_config`: the two duplicated implementations -/

/-- `IngestorService._get_base_connector_config`
(`src/iatoolkit/services/ingestor_service.py`): in the `dev` environment the
`development` connector (default `{'type': 'local'}`), otherwise
`connectors.get('production', {})` — the stored value even when falsy. -/
def ingestorGetBaseConnectorConfig (knowledge_base_config : PyVal)
    (env : String) : Except String PyVal := do
  let connectors ← knowledge_base_config.getDefault "connectors" (.pydict [])
  if env = "dev" then
    connectors.getDefault "development" (.pydict [("type", .pystr "local")])
  else
    connectors.getDefault "production" (.pydict [])

/-- `LoadDocumentsService._get_base_connector_config`
(`src/iatoolkit/services/load_documents_service.py`): in the `dev`
environment the `development` connector (default `{'type': 'local'}`),
otherwise `connectors.get('production')` replaced by `{}` whenever it is
falsy (absent, `None`, empty, ...). -/
def loadDocumentsGetBaseConnectorConfig (knowledge_base_config : PyVal)
    (env : String) : Except String PyVal := do
  let connectors ← knowledge_base_config.getDefault "connectors" (.pydict [])
  if env = "dev" then
    connectors.getDefault "development" (.pydict [("type", .pystr "local")])
  else do
    let prod_config ← connectors.get "production"
    if ¬ prod_config.truthy then pure (.pydict [])
    else pure prod_config

/-! ## `sync_sources_from_yaml`: the two duplicated implementations
The repository interactions are recorded as an event trace: one
`readSource` per `get_ingestion_source_by_name` call and one `writeSource`
per `create_or_update_ingestion_source` call, the written record included
in full. -/

/-- An `IngestionSource` record as read and written by
`sync_sources_from_yaml`. -/
structure SyncIngestionSource where
  company_id : Nat
  name : String
  source_type : IngestionSourceType
  status : IngestionStatus
  configuration : PyVal

/-- One repository interaction performed by `sync_sources_from_yaml`. -/
inductive SyncEvent where
  | readSource (name : String)
  | writeSource (record : SyncIngestionSource)

/-- Loop body of `IngestorService.sync_sources_from_yaml` over the
`document_sources` items: compute the source type from the base connector's
`type`, build the merged configuration, read the existing record by name
(creating a fresh ACTIVE one when absent), overwrite its configuration and
write it back. -/
def ingestorSyncLoop (company_id : Nat)
    (repo : List (String × SyncIngestionSource)) (base_connector : PyVal) :
    List (String × PyVal) → Except String (List SyncEvent)
  | [] => .ok []
  | (name, config) :: rest => do
    let base_type ← base_connector.get "type"
    let source_type : IngestionSourceType :=
      match base_type with
      | .pystr s => if s = "local" then .LOCAL else .S3
      | _ => .S3
    let base_entries ← match base_connector with
      | .pydict xs => pure xs
      | _ => Except.error "AttributeError"
    let path ← config.get "path"
    let folder ← config.get "folder"
    let metadata ← config.getDefault "metadata" (.pydict [])
    let collection ← config.get "collection"
    let full_config := PyVal.pydict (dictUpdate base_entries
      [("path", path), ("folder", folder), ("metadata", metadata),
       ("collection", collection)])
    let source_record : SyncIngestionSource :=
      match assocLookup repo name with
      | none =>
        { company_id := company_id, name := name, source_type := source_type,
          status := .ACTIVE, configuration := full_config }
      | some existing => existing
    let written := { source_record with configuration := full_config }
    let events ← ingestorSyncLoop company_id repo base_connector rest
    pure (.readSource name :: .writeSource written :: events)

/-- Loop body of `LoadDocumentsService.sync_sources_from_yaml`, identical
statement for statement to the loop in `IngestorService`. -/
def loadDocumentsSyncLoop (company_id : Nat)
    (repo : List (String × SyncIngestionSource)) (base_connector : PyVal) :
    List (String × PyVal) → Except String (List SyncEvent)
  | [] => .ok []
  | (name, config) :: rest => do
    let base_type ← base_connector.get "type"
    let source_type : IngestionSourceType :=
      match base_type with
      | .pystr s => if s = "local" then .LOCAL else .S3
      | _ => .S3
    let base_entries ← match base_connector with
      | .pydict xs => pure xs
      | _ => Except.error "AttributeError"
    let path ← config.get "path"
    let folder ← config.get "folder"
    let metadata ← config.getDefault "metadata" (.pydict [])
    let collection ← config.get "collection"
    let full_config := PyVal.pydict (dictUpdate base_entries
      [("path", path), ("folder", folder), ("metadata", metadata),
       ("collection", collection)])
    let source_record : SyncIngestionSource :=
      match assocLookup repo name with
      | none =>
        { company_id := company_id, name := name, source_type := source_type,
          status := .ACTIVE, configuration := full_config }
      | some existing => existing
    let written := { source_record with configuration := full_config }
    let events ← loadDocumentsSyncLoop company_id repo base_connector rest
    pure (.readSource name :: .writeSource written :: events)

/-- `IngestorService.sync_sources_from_yaml`: no-op on a falsy
configuration, else iterate `document_sources` with the base connector from
`IngestorService._get_base_connector_config`. -/
def ingestorSyncSourcesFromYaml (kb_config : PyVal) (env : String)
    (company_id : Nat) (repo : List (String × SyncIngestionSource)) :
    Except String (List SyncEvent) :=
  if ¬ kb_config.truthy then .ok []
  else do
    let yaml_sources ← kb_config.getDefault "document_sources" (.pydict [])
    let sources_items ← match yaml_sources with
      | .pydict xs => pure xs
      | _ => Except.error "AttributeError"
    let base_connector ← ingestorGetBaseConnectorConfig kb_config env
    ingestorSyncLoop company_id repo base_connector sources_items

/-- `LoadDocumentsService.sync_sources_from_yaml`: no-op on a falsy
configuration, else iterate `document_sources` with the base connector from
`LoadDocumentsService._get_base_connector_config`. -/
def loadDocumentsSyncSourcesFromYaml (kb_config : PyVal) (env : String)
    (company_id : Nat) (repo : List (String × SyncIngestionSource)) :
    Except String (List SyncEvent) :=
  if ¬ kb_config.truthy then .ok []
  else do
    let yaml_sources ← kb_config.getDefault "document_sources" (.pydict [])
    let sources_items ← match yaml_sources with
      | .pydict xs => pure xs
      | _ => Except.error "AttributeError"
    let base_connector ← loadDocumentsGetBaseConnectorConfig kb_config env
    loadDocumentsSyncLoop company_id repo base_connector sources_items

/-- Whether an `Except` value is a success. -/
def exceptOk {ε α : Type} : Except ε α → Bool
  | .ok _ => true
  | .error _ => false

/-- The condition under which the two `_get_base_connector_config`
implementations agree outside the `dev` environment: the `production`
connector entry is absent, truthy, or the empty dictionary (an
`AttributeError` on a non-dictionary input is raised identically by
both). -/
def productionEntryOk (kb_config : PyVal) : Prop :=
  match kb_config.getDefault "connectors" (.pydict []) with
  | .error _ => True
  | .ok connectors =>
    match connectors with
    | .pydict xs =>
      match assocLookup xs "production" with
      | none => True
      | some v => v.truthy = true ∨ v = .pydict []
    | _ => True

/-! ## `IngestorService.load_sources` -/

/-- One externally visible step performed by `IngestorService.load_sources`. -/
inductive LoadSourcesEvent where
  | syncFromYaml
  | getActiveSources (company_id : Nat) (names : List String)
  | triggerLogic (source_name : String)

/-- The collaborators `load_sources` reaches:
`current_iatoolkit().is_community`, the configuration and repository state
consumed by the YAML sync, `document_repo.get_active_ingestion_sources`
(returning the names of matching active sources) and
`ingestion_runner_service._trigger_ingestion_logic` (its processed count, or
the message of the exception it raises). -/
structure LoadSourcesEnv where
  is_community : Bool
  kb_config : PyVal
  flask_env : String
  repo : List (String × SyncIngestionSource)
  active_sources : Nat → List String → List String
  trigger_result : String → Except String Int

/-- The `for source in sources` loop of `load_sources`: accumulate the
processed counts from `_trigger_ingestion_logic`; an exception propagates
(there is no try/except around the loop in `IngestorService`). -/
def runTriggers (env : LoadSourcesEnv) :
    List String → Except PyError Int × List LoadSourcesEvent
  | [] => (.ok 0, [])
  | s :: rest =>
    match env.trigger_result s with
    | .error e => (.error (.exc e), [.triggerLogic s])
    | .ok n =>
      match runTriggers env rest with
      | (.ok m, evs) => (.ok (n + m), .triggerLogic s :: evs)
      | (.error e, evs) => (.error e, .triggerLogic s :: evs)

/-- `IngestorService.load_sources`
(`src/iatoolkit/services/ingestor_service.py`): outside community mode the
bare `return` yields Python `None` (embedded as `none`, although the
signature declares `-> int`) before any work happens; with a missing or
empty `sources_to_load` list it raises PARAM_NOT_FILLED; otherwise it syncs
the YAML sources, fetches the matching active sources and triggers each. -/
def ingestorLoadSources (env : LoadSourcesEnv) (company : Company)
    (sources_to_load : Option (List String)) :
    Except PyError (Option Int) × List LoadSourcesEvent :=
  if ¬ env.is_community then (.ok none, [])
  else if (sources_to_load.getD []).isEmpty then
    (.error (.toolkit .PARAM_NOT_FILLED
      ("Missing sources to load for company '" ++ company.short_name ++ "'.")),
     [])
  else
    match ingestorSyncSourcesFromYaml env.kb_config env.flask_env
        company.id env.repo with
    | .error e => (.error (.exc e), [.syncFromYaml])
    | .ok _ =>
      let names := sources_to_load.getD []
      let sources := env.active_sources company.id names
      if sources.isEmpty then
        (.ok (some 0), [.syncFromYaml, .getActiveSources company.id names])
      else
        match runTriggers env sources with
        | (.ok total, evs) =>
          (.ok (some total),
           .syncFromYaml :: .getActiveSources company.id names :: evs)
        | (.error e, evs) =>
          (.error e, .syncFromYaml :: .getActiveSources company.id names :: evs)

/-! ## Ingestion runner
Modelled from the spec: the implementation file
`iatoolkit/services/ingestion_runner_service.py` is not part of the source
snapshot (only its tests and its callers are), so `run_ingestion` and
`_trigger_ingestion_logic` are modelled from the specification's
`run_ingestion(company, source_id, user_identifier) -> processed_count`
contract (steps 1-8) and its data model, with
`LoadDocumentsService.trigger_ingestion` — which is in the snapshot and
implements the same try/except/finally status protocol — as the shape of
the execution body. -/

/-- Modelled from the spec: the `IngestionSource` record (connector name,
root path, target collection, status, last run / last error). -/
structure IngestionSource where
  id : Nat
  company_id : Nat
  name : String
  connector_name : Option String
  root : Option String
  collection : Option String
  status : IngestionStatus
  last_run_at : Option Nat
  last_error : Option String
deriving Repr, DecidableEq

/-- Modelled from the spec: the `IngestionRun` record (status,
triggered_by, processed-file count, error message, start/finish time). -/
structure IngestionRun where
  id : Nat
  source_id : Nat
  company_id : Nat
  status : IngestionStatus
  triggered_by : String
  processed_files : Nat
  error_message : Option String
  started_at : Nat
  finished_at : Option Nat
deriving Repr, DecidableEq

/-- Modelled from the spec: the `Document` artifact produced per ingested
file. -/
structure Document where
  company_id : Nat
  filename : String
deriving Repr, DecidableEq

/-- The persistent state the runner reads and writes: the ingestion
sources, the ingestion runs, the stored documents, the next run id the
repository will assign, and the current clock value used for timestamps. -/
structure RepoState where
  sources : List IngestionSource
  runs : List IngestionRun
  documents : List Document
  next_run_id : Nat
  now : Nat
deriving Repr, DecidableEq

/-- `document_repo.get_ingestion_source_by_id`: first source matching the
(company, id) pair. -/
def getIngestionSourceById (st : RepoState) (company_id source_id : Nat) :
    Option IngestionSource :=
  st.sources.find? fun s => s.company_id == company_id && s.id == source_id

/-- `document_repo.create_or_update_ingestion_source` for a record that
already exists: overwrite every stored source with the same
(company, id). -/
def persistSource (st : RepoState) (src : IngestionSource) : RepoState :=
  { st with sources := st.sources.map fun s =>
      if s.company_id == src.company_id && s.id == src.id then src else s }

/-- `document_repo.create_ingestion_run`: append the new run and advance
the id counter. -/
def createIngestionRun (st : RepoState) (run : IngestionRun) : RepoState :=
  { st with runs := st.runs ++ [run], next_run_id := st.next_run_id + 1 }

/-- `document_repo.update_ingestion_run`: overwrite the stored run with the
same id. -/
def updateIngestionRun (st : RepoState) (run : IngestionRun) : RepoState :=
  { st with runs := st.runs.map fun r => if r.id == run.id then run else r }

/-- Modelled from the spec: the runner's external inputs — the connector
aliases available in the company configuration, the files the connector
crawl yields, the filename filter, the per-file parse+embed+store callback
(`Except.error` is a per-file failure), and the continue-on-error switch of
the File Processor configuration. -/
structure RunnerEnv where
  connector_aliases : List String
  files : List String
  filename_filter : String → Bool
  ingest : String → Except String Document
  continue_on_error : Bool

/-- Modelled from the spec: the File Processor loop — iterate the files the
connector yielded, skip those rejected by the filename filter, invoke the
callback on the rest and count each invoked file; a per-file failure is
collected and the crawl continues when continue-on-error is set, otherwise
it aborts the crawl with that error.  Returns the processed count, the
documents stored so far, the collected per-file errors, and the aborting
error if any. -/
def processFiles (flt : String → Bool) (ingest : String → Except String Document)
    (continue_on_error : Bool) :
    List String → Nat → List Document → List String →
    Nat × List Document × List String × Option String
  | [], n, docs, errs => (n, docs, errs, none)
  | f :: rest, n, docs, errs =>
    if flt f then
      match ingest f with
      | .ok doc =>
        processFiles flt ingest continue_on_error rest (n + 1) (docs ++ [doc]) errs
      | .error e =>
        if continue_on_error then
          processFiles flt ingest continue_on_error rest (n + 1) docs (errs ++ [e])
        else (n, docs, errs, some e)
    else processFiles flt ingest continue_on_error rest n docs errs

/-- Modelled from the spec: how a caught exception is rendered into the
persisted `error_message` / `last_error` columns.  An `IAToolkitException`
renders with its error-type name; a plain exception renders with its class
name, as in the runner's logging — so the recorded message is never
empty. -/
def errorTypeName : ErrorType → String
  | .PARAM_NOT_FILLED => "PARAM_NOT_FILLED"
  | .NOT_FOUND => "NOT_FOUND"
  | .INVALID_STATE => "INVALID_STATE"
  | .CONFIG_ERROR => "CONFIG_ERROR"
  | .LOAD_DOCUMENT_ERROR => "LOAD_DOCUMENT_ERROR"

/-- String rendering of a raised exception (see `errorTypeName`). -/
def errString : PyError → String
  | .toolkit t m => errorTypeName t ++ ": " ++ m
  | .exc m => "Exception: " ++ m

/-- Modelled from the spec (steps 4-8 of the `run_ingestion` contract, body
shaped after `LoadDocumentsService.trigger_ingestion`): mark the source
RUNNING and persist it; resolve the connector configuration — CONFIG_ERROR
when the source has no connector alias, its configuration has no root, or
the alias is not in the company configuration; run the File Processor,
storing each produced document; on success persist the source back to
ACTIVE with `last_run_at`; on any exception persist the source as ERROR
with `last_error` and re-raise. -/
def triggerIngestionLogic (env : RunnerEnv) (src : IngestionSource)
    (st : RepoState) : Except PyError Nat × RepoState :=
  let running : IngestionSource := { src with status := .RUNNING, last_error := none }
  let st1 := persistSource st running
  let checked : Except PyError Unit :=
    match src.connector_name with
    | none => .error (.toolkit .CONFIG_ERROR "source has no connector_name")
    | some alias_name =>
      if src.root = none then
        .error (.toolkit .CONFIG_ERROR "connector configuration has no root")
      else if ¬ env.connector_aliases.contains alias_name then
        .error (.toolkit .CONFIG_ERROR "connector alias is not configured")
      else .ok ()
  match checked with
  | .error e =>
    let failed : IngestionSource :=
      { running with status := .ERROR, last_error := some (errString e) }
    (.error e, persistSource st1 failed)
  | .ok _ =>
    match processFiles env.filename_filter env.ingest env.continue_on_error
        env.files 0 [] [] with
    | (processed, docs, _errs, none) =>
      let st2 := { st1 with documents := st1.documents ++ docs }
      let finished : IngestionSource :=
        { running with status := .ACTIVE, last_run_at := some st2.now }
      (.ok processed, persistSource st2 finished)
    | (_processed, docs, _errs, some e) =>
      let st2 := { st1 with documents := st1.documents ++ docs }
      let failed : IngestionSource :=
        { running with status := .ERROR, last_error := some (errString (.exc e)) }
      (.error (.exc e), persistSource st2 failed)

/-- Modelled from the spec (step 3): the `IngestionRun` row created before
execution — status RUNNING, `triggered_by` the caller's identifier, ids
taken from the looked-up source and the repository's id counter. -/
def createdRun (company : Company) (source_id : Nat) (user_identifier : String)
    (st : RepoState) : IngestionRun :=
  { id := st.next_run_id, source_id := source_id, company_id := company.id,
    status := .RUNNING, triggered_by := user_identifier, processed_files := 0,
    error_message := none, started_at := st.now, finished_at := none }

/-- Modelled from the spec: `run_ingestion(company, source_id,
user_identifier) -> processed_count` — load the source by (company, id)
(NOT_FOUND when absent), refuse a RUNNING source (INVALID_STATE), create
the RUNNING `IngestionRun` row, execute the ingestion, and finalize the run
to ACTIVE with the processed count (success) or to ERROR with the rendered
exception message (failure, re-raising the exception). -/
def runIngestion (env : RunnerEnv) (company : Company) (source_id : Nat)
    (user_identifier : String) (st : RepoState) :
    Except PyError Nat × RepoState :=
  match getIngestionSourceById st company.id source_id with
  | none => (.error (.toolkit .NOT_FOUND "ingestion source not found"), st)
  | some src =>
    if src.status = .RUNNING then
      (.error (.toolkit .INVALID_STATE "source is already running"), st)
    else
      let run := createdRun company source_id user_identifier st
      let st1 := createIngestionRun st run
      match triggerIngestionLogic env src st1 with
      | (.ok processed, st2) =>
        let finished : IngestionRun :=
          { run with
            status := .ACTIVE
            processed_files := processed
            finished_at := some st2.now }
        (.ok processed, updateIngestionRun st2 finished)
      | (.error e, st2) =>
        let failed : IngestionRun :=
          { run with
            status := .ERROR
            error_message := some (errString e)
            finished_at := some st2.now }
        (.error e, updateIngestionRun st2 failed)

/-! ## Concrete fixtures used to exercise the definitions -/

/-- A company with one configured connector alias, a crawl of three files
(one rejected by the filter) and an ingest callback that always
succeeds. -/
def demoEnv : RunnerEnv :=
  { connector_aliases := ["iatoolkit_storage"]
    files := ["a.pdf", "b.txt", "c.pdf"]
    filename_filter := fun f => f.endsWith ".pdf"
    ingest := fun f => .ok ⟨1, f⟩
    continue_on_error := true }

/-- A crawl whose second file fails to ingest, with continue-on-error off:
the run fails after one stored document. -/
def demoFailEnv : RunnerEnv :=
  { connector_aliases := ["iatoolkit_storage"]
    files := ["a.pdf", "b.pdf"]
    filename_filter := fun _ => true
    ingest := fun f => if f = "a.pdf" then .ok ⟨1, f⟩ else .error "boom"
    continue_on_error := false }

/-- An ACTIVE, fully configured ingestion source. -/
def demoSource : IngestionSource :=
  { id := 1, company_id := 1, name := "docs"
    connector_name := some "iatoolkit_storage", root := some "p"
    collection := some "default", status := .ACTIVE
    last_run_at := none, last_error := none }

/-- A repository holding exactly `demoSource`, no runs and no documents. -/
def demoState : RepoState :=
  { sources := [demoSource], runs := [], documents := []
    next_run_id := 5, now := 100 }

/-- The company owning `demoSource`. -/
def demoCompany : Company := ⟨1, "acme"⟩

/-- A resolver environment with a company-level `parsing_provider` of
`"legacy"` and one collection carrying a persisted override. -/
def demoResolverEnv : ResolverEnv :=
  { get_configuration := fun _ => some ⟨some "legacy"⟩
    get_collection_by_name := fun _ n =>
      if n = "contracts" then some ⟨some " Docling "⟩ else none
    get_provider := fun n => ⟨n, true, fun _ => true⟩ }

/-- A parse request against the collection with the persisted override. -/
def demoRequest : ParseRequest := ⟨"acme", some "contracts", "f.pdf"⟩

/-- A `load_sources` environment outside community mode. -/
def demoLoadEnvOff : LoadSourcesEnv :=
  { is_community := false, kb_config := .pynone, flask_env := "dev"
    repo := [], active_sources := fun _ _ => []
    trigger_result := fun _ => .ok 0 }

/-- The same `load_sources` environment in community mode. -/
def demoLoadEnvOn : LoadSourcesEnv :=
  { demoLoadEnvOff with is_community := true }

/-- A knowledge-base configuration whose `production` connector entry is
present but `None` (as YAML `production:` with no value), with one
document source. -/
def kbProdNone : PyVal :=
  .pydict [("connectors", .pydict [("production", .pynone)]),
           ("document_sources", .pydict [("a", .pydict [])])]

/-- A knowledge-base configuration with a truthy `production` connector
entry and one document source. -/
def kbProdSet : PyVal :=
  .pydict [("connectors",
             .pydict [("production",
                        .pydict [("type", .pystr "s3"), ("bucket", .pystr "b")])]),
           ("document_sources", .pydict [("a", .pydict [("path", .pystr "/x")])])]

/-! ## Helper lemmas -/

lemma map_if_no_match {α : Type} (p : α → Bool) (b : α) (l : List α)
    (h : ∀ x ∈ l, p x = false) :
    (l.map fun s => if p s then b else s) = l := by
  induction l with
  | nil => rfl
  | cons a t ih =>
    have ha := h a (List.mem_cons_self a t)
    simp [List.map_cons, ha, ih fun x hx => h x (List.mem_cons_of_mem a hx)]

lemma map_if_comp {α : Type} (p : α → Bool) (a b : α) (ha : p a = true)
    (l : List α) :
    ((l.map fun s => if p s then a else s).map fun s => if p s then b else s) =
      l.map fun s => if p s then b else s := by
  rw [List.map_map]
  apply List.map_congr_left
  intro x _
  by_cases hx : p x = true
  · simp [hx, ha]
  · have hx' : p x = false := by simpa using hx
    simp [hx']

lemma find?_map_if {α : Type} (p : α → Bool) (b : α) (hb : p b = true)
    (l : List α) (x : α) (hx : l.find? p = some x) :
    (l.map fun s => if p s then b else s).find? p = some b := by
  induction l with
  | nil => simp at hx
  | cons a t ih =>
    by_cases ha : p a = true
    · simp [List.find?_cons, ha, hb]
    · have ha' : p a = false := by simpa using ha
      simp only [List.find?_cons, ha', cond_false] at hx
      simp [List.find?_cons, ha', ih hx]

lemma append_ne_empty {s t : String} (hs : s.length ≠ 0) : s ++ t ≠ "" := by
  intro h
  have h2 := congrArg String.length h
  rw [String.length_append] at h2
  simp at h2
  exact hs h2.1

lemma errString_ne_empty (e : PyError) : errString e ≠ "" := by
  cases e with
  | toolkit t m => exact append_ne_empty (by cases t <;> decide)
  | exc m => exact append_ne_empty (by decide)

/-- When continue-on-error is set, or every file passing the filter ingests
successfully, the File Processor never aborts and counts exactly the files
the connector yielded minus those skipped by the filename filter. -/
lemma processFiles_no_abort (flt : String → Bool)
    (ing : String → Except String Document) (coe : Bool) :
    ∀ (files : List String),
      (coe = true ∨ ∀ f ∈ files, flt f = true → exceptOk (ing f) = true) →
      ∀ (n : Nat) (docs : List Document) (errs : List String),
        ∃ docs2 errs2,
          processFiles flt ing coe files n docs errs =
            (n + (files.filter flt).length, docs ++ docs2, errs ++ errs2, none)
  | [], _, n, docs, errs => ⟨[], [], by simp [processFiles]⟩
  | f :: rest, h, n, docs, errs => by
    have hrest : coe = true ∨ ∀ g ∈ rest, flt g = true → exceptOk (ing g) = true := by
      rcases h with h | h
      · exact Or.inl h
      · exact Or.inr fun g hg hf => h g (List.mem_cons_of_mem _ hg) hf
    by_cases hf : flt f = true
    · cases hing : ing f with
      | ok d =>
        obtain ⟨docs2, errs2, heq⟩ :=
          processFiles_no_abort flt ing coe rest hrest (n + 1) (docs ++ [d]) errs
        refine ⟨d :: docs2, errs2, ?_⟩
        simp only [processFiles, hf, if_true, hing, heq, List.filter_cons,
          List.length_cons, Prod.mk.injEq, List.append_assoc,
          List.singleton_append, and_true]
        omega
      | error e =>
        have hcoe : coe = true := by
          rcases h with h | h
          · exact h
          · have := h f (List.mem_cons_self f rest) hf
            rw [hing] at this
            simp [exceptOk] at this
        subst hcoe
        obtain ⟨docs2, errs2, heq⟩ :=
          processFiles_no_abort flt ing true rest hrest (n + 1) docs (errs ++ [e])
        refine ⟨docs2, e :: errs2, ?_⟩
        simp only [processFiles, hf, if_true, hing, heq, List.filter_cons,
          List.length_cons, Prod.mk.injEq, List.append_assoc,
          List.singleton_append, and_true, true_and]
        omega
    · have hf' : flt f = false := by simpa using hf
      obtain ⟨docs2, errs2, heq⟩ :=
        processFiles_no_abort flt ing coe rest hrest n docs errs
      exact ⟨docs2, errs2, by simp [processFiles, hf', heq]⟩

lemma getIngestionSourceById_some (st : RepoState) (c i : Nat)
    (src : IngestionSource) (h : getIngestionSourceById st c i = some src) :
    src.company_id = c ∧ src.id = i := by
  have := List.find?_some h
  simpa [Bool.and_eq_true, beq_iff_eq] using this

lemma find?_sources (l : List IngestionSource) (c i : Nat)
    (src b : IngestionSource)
    (hfind : l.find? (fun s => s.company_id == c && s.id == i) = some src)
    (hbc : b.company_id = src.company_id) (hbi : b.id = src.id) :
    (l.map fun s =>
        if s.company_id == src.company_id && s.id == src.id then b else s).find?
      (fun s => s.company_id == c && s.id == i) = some b := by
  have hci : src.company_id = c ∧ src.id = i := by
    have := List.find?_some hfind
    simpa [Bool.and_eq_true, beq_iff_eq] using this
  rw [hci.1, hci.2]
  exact find?_map_if _ b
    (by simp [Bool.and_eq_true, beq_iff_eq, hbc, hbi, hci.1, hci.2]) l src hfind

/-- Success shape of the execution body: the processed count is the File
Processor's count, the stored documents are appended, and the source ends
persisted as ACTIVE with `last_run_at` set and `last_error` cleared. -/
lemma triggerIngestionLogic_ok (env : RunnerEnv) (src : IngestionSource)
    (st1 : RepoState) (n : Nat) (st2 : RepoState)
    (h : triggerIngestionLogic env src st1 = (.ok n, st2)) :
    ∃ docs errs,
      processFiles env.filename_filter env.ingest env.continue_on_error
        env.files 0 [] [] = (n, docs, errs, none) ∧
      st2 = { st1 with
        documents := st1.documents ++ docs
        sources := st1.sources.map fun s =>
          if s.company_id == src.company_id && s.id == src.id then
            { src with
              status := .ACTIVE
              last_error := none
              last_run_at := some st1.now }
          else s } := by
  simp only [triggerIngestionLogic] at h
  split at h
  · exact absurd h (by simp)
  · split at h
    · rename_i processed docs errs hproc
      obtain ⟨hn, hst⟩ := Prod.mk.injEq .. ▸ h
      have hpn : processed = n := by injection hn
      refine ⟨docs, errs, ?_, ?_⟩
      · rw [hproc, hpn]
      · rw [← hst]
        simp only [persistSource]
        rw [map_if_comp]
        simp
    · exact absurd h (by simp)

lemma runs_update (runs : List IngestionRun) (run nr : IngestionRun)
    (hid : nr.id = run.id) (h : ∀ r ∈ runs, r.id ≠ run.id) :
    ((runs ++ [run]).map fun r => if r.id == nr.id then nr else r) =
      runs ++ [nr] := by
  rw [List.map_append]
  congr 1
  · apply map_if_no_match
    intro x hx
    simp only [beq_eq_false_iff_ne, ne_eq, hid]
    exact h x hx
  · simp [hid]

/-- With a present connector alias, a present root and a configured alias,
and a crawl that cannot abort, the execution body returns the count of
files passing the filename filter. -/
lemma triggerIngestionLogic_result_ok (env : RunnerEnv) (src : IngestionSource)
    (st1 : RepoState) (alias_name : String)
    (hconn : src.connector_name = some alias_name)
    (hroot : ¬ src.root = none)
    (halias : env.connector_aliases.contains alias_name = true)
    (hok : env.continue_on_error = true ∨
      ∀ f ∈ env.files, env.filename_filter f = true → exceptOk (env.ingest f) = true) :
    (triggerIngestionLogic env src st1).1 =
      .ok ((env.files.filter env.filename_filter).length) := by
  obtain ⟨docs2, errs2, heq⟩ := processFiles_no_abort env.filename_filter
    env.ingest env.continue_on_error env.files hok 0 [] []
  simp only [List.nil_append, Nat.zero_add] at heq
  have hmem : alias_name ∈ env.connector_aliases := by simpa using halias
  simp [triggerIngestionLogic, hconn, hroot, halias, hmem, heq]

/-- Failure shape of the execution body: the documents stored before the
failure are appended (none removed) — no document at all when the
validation failed before the crawl, and exactly the File Processor's
pre-abort output when the crawl failed mid-run — and the source ends
persisted as ERROR with `last_error` set to the rendered exception. -/
lemma triggerIngestionLogic_error (env : RunnerEnv) (src : IngestionSource)
    (st1 : RepoState) (e : PyError) (st2 : RepoState)
    (h : triggerIngestionLogic env src st1 = (.error e, st2)) :
    ∃ docs,
      (docs = [] ∨
        ∃ n errs msg,
          processFiles env.filename_filter env.ingest env.continue_on_error
            env.files 0 [] [] = (n, docs, errs, some msg)) ∧
      st2 = { st1 with
        documents := st1.documents ++ docs
        sources := st1.sources.map fun s =>
          if s.company_id == src.company_id && s.id == src.id then
            { src with status := .ERROR, last_error := some (errString e) }
          else s } := by
  simp only [triggerIngestionLogic] at h
  split at h
  · rename_i e' heq
    obtain ⟨he, hst⟩ := Prod.mk.injEq .. ▸ h
    refine ⟨[], Or.inl rfl, ?_⟩
    rw [← hst]
    have he' : e' = e := by injection he
    subst he'
    simp only [persistSource, List.append_nil]
    rw [map_if_comp]
    simp
  · split at h
    · exact absurd h (by simp)
    · rename_i processed docs errs e' hproc
      obtain ⟨he, hst⟩ := Prod.mk.injEq .. ▸ h
      refine ⟨docs, Or.inr ⟨processed, errs, e', hproc⟩, ?_⟩
      rw [← hst]
      have he' : PyError.exc e' = e := by injection he
      subst he'
      simp only [persistSource]
      rw [map_if_comp]
      simp

/-! ## Claims about the ingestion runner -/

/-- C1: for every ingestion source whose status is RUNNING, `run_ingestion`
on that source raises an INVALID_STATE error and creates no new
IngestionRun record (the repository state is returned unchanged). -/
theorem run_ingestion_running_raises_invalid_state (env : RunnerEnv)
    (company : Company) (source_id : Nat) (user_identifier : String)
    (st : RepoState) (src : IngestionSource)
    (hfind : getIngestionSourceById st company.id source_id = some src)
    (hrun : src.status = .RUNNING) :
    ∃ m, runIngestion env company source_id user_identifier st =
      (.error (.toolkit .INVALID_STATE m), st) := by
  refine ⟨"source is already running", ?_⟩
  simp [runIngestion, hfind, hrun]

/-- C1 witness: a concrete RUNNING source is rejected with INVALID_STATE
and the state — in particular the runs table — is unchanged. -/
theorem run_ingestion_running_raises_invalid_state_witness :
    ∃ m,
      runIngestion
        ⟨["iatoolkit_storage"], ["a.pdf"], fun _ => true, fun f => .ok ⟨1, f⟩, true⟩
        ⟨1, "acme"⟩ 1 "u1"
        ⟨[⟨1, 1, "docs", some "iatoolkit_storage", some "p", some "default",
           .RUNNING, none, none⟩], [], [], 5, 100⟩ =
      (.error (.toolkit .INVALID_STATE m),
        ⟨[⟨1, 1, "docs", some "iatoolkit_storage", some "p", some "default",
           .RUNNING, none, none⟩], [], [], 5, 100⟩) :=
  run_ingestion_running_raises_invalid_state _ _ _ _ _
    ⟨1, 1, "docs", some "iatoolkit_storage", some "p", some "default",
      .RUNNING, none, none⟩ rfl rfl

/-- C5: for every company and source_id with no ingestion source for that
(company, id) pair, `run_ingestion` fails with a NOT_FOUND error and
creates no IngestionRun (the repository state is returned unchanged). -/
theorem run_ingestion_absent_raises_not_found (env : RunnerEnv)
    (company : Company) (source_id : Nat) (user_identifier : String)
    (st : RepoState)
    (hfind : getIngestionSourceById st company.id source_id = none) :
    ∃ m, runIngestion env company source_id user_identifier st =
      (.error (.toolkit .NOT_FOUND m), st) := by
  refine ⟨"ingestion source not found", ?_⟩
  simp [runIngestion, hfind]

/-- C5 witness: with an empty source table, `run_ingestion` answers
NOT_FOUND and leaves the state unchanged. -/
theorem run_ingestion_absent_raises_not_found_witness :
    ∃ m,
      runIngestion
        ⟨["iatoolkit_storage"], ["a.pdf"], fun _ => true, fun f => .ok ⟨1, f⟩, true⟩
        ⟨1, "acme"⟩ 99 "u1" ⟨[], [], [], 5, 100⟩ =
      (.error (.toolkit .NOT_FOUND m), ⟨[], [], [], 5, 100⟩) :=
  run_ingestion_absent_raises_not_found _ _ _ _ _ rfl

/-- C6: for every source whose connector alias or root path is missing —
no connector_name, no root in the configuration, or an alias not present
in the company's connector configuration — triggering ingestion fails with
a CONFIG_ERROR. -/
theorem trigger_ingestion_missing_config_raises_config_error
    (env : RunnerEnv) (src : IngestionSource) (st : RepoState)
    (h : src.connector_name = none ∨ src.root = none ∨
      ∀ a, src.connector_name = some a →
        env.connector_aliases.contains a = false) :
    ∃ m, (triggerIngestionLogic env src st).1 =
      .error (.toolkit .CONFIG_ERROR m) := by
  rcases h with h | h | h
  · exact ⟨"source has no connector_name", by simp [triggerIngestionLogic, h]⟩
  · cases hc : src.connector_name with
    | none => exact ⟨"source has no connector_name", by simp [triggerIngestionLogic, hc]⟩
    | some a =>
      exact ⟨"connector configuration has no root",
        by simp [triggerIngestionLogic, hc, h]⟩
  · cases hc : src.connector_name with
    | none => exact ⟨"source has no connector_name", by simp [triggerIngestionLogic, hc]⟩
    | some a =>
      by_cases hr : src.root = none
      · exact ⟨"connector configuration has no root",
          by simp [triggerIngestionLogic, hc, hr]⟩
      · have hmem : ¬ a ∈ env.connector_aliases := by
          have := h a hc
          simpa using this
        exact ⟨"connector alias is not configured",
          by simp [triggerIngestionLogic, hc, hr, hmem]⟩

/-- C6 witness: a source with no connector_name is rejected with
CONFIG_ERROR. -/
theorem trigger_ingestion_missing_config_raises_config_error_witness :
    ∃ m,
      (triggerIngestionLogic
        ⟨["iatoolkit_storage"], ["a.pdf"], fun _ => true, fun f => .ok ⟨1, f⟩, true⟩
        ⟨1, 1, "docs", none, some "p", some "default", .ACTIVE, none, none⟩
        ⟨[⟨1, 1, "docs", none, some "p", some "default", .ACTIVE, none, none⟩],
          [], [], 5, 100⟩).1 =
      .error (.toolkit .CONFIG_ERROR m) :=
  trigger_ingestion_missing_config_raises_config_error _ _ _ (Or.inl rfl)

/-- C2: every run of `run_ingestion` that completes without an exception
returns the processed-file count — the number of files the connector
yielded minus those skipped by the filename filter — and leaves the
IngestionRun finalized as ACTIVE with that `processed_files` and a set
`finished_at`, and the source back at status ACTIVE. -/
theorem run_ingestion_success (env : RunnerEnv) (company : Company)
    (source_id : Nat) (user_identifier : String) (st : RepoState)
    (src : IngestionSource) (alias_name : String)
    (hfind : getIngestionSourceById st company.id source_id = some src)
    (hrun : ¬ src.status = .RUNNING)
    (hfresh : ∀ r ∈ st.runs, r.id ≠ st.next_run_id)
    (hconn : src.connector_name = some alias_name)
    (hroot : ¬ src.root = none)
    (halias : env.connector_aliases.contains alias_name = true)
    (hok : env.continue_on_error = true ∨
      ∀ f ∈ env.files, env.filename_filter f = true →
        exceptOk (env.ingest f) = true) :
    ∃ st2,
      runIngestion env company source_id user_identifier st =
        (.ok ((env.files.filter env.filename_filter).length), st2) ∧
      st2.runs = st.runs ++
        [{ createdRun company source_id user_identifier st with
           status := .ACTIVE
           processed_files := (env.files.filter env.filename_filter).length
           finished_at := some st.now }] ∧
      getIngestionSourceById st2 company.id source_id =
        some { src with
               status := .ACTIVE
               last_error := none
               last_run_at := some st.now } := by
  rcases htrig : triggerIngestionLogic env src
      (createIngestionRun st (createdRun company source_id user_identifier st))
    with ⟨r, st2t⟩
  have h1 : r = .ok ((env.files.filter env.filename_filter).length) := by
    have := triggerIngestionLogic_result_ok env src
      (createIngestionRun st (createdRun company source_id user_identifier st))
      alias_name hconn hroot halias hok
    rw [htrig] at this
    exact this
  subst h1
  obtain ⟨docs, errs, hproc, hst2⟩ := triggerIngestionLogic_ok env src _ _ st2t htrig
  simp only [runIngestion, hfind, if_neg hrun, htrig]
  refine ⟨_, rfl, ?_, ?_⟩
  · rw [hst2]
    simp only [updateIngestionRun, createIngestionRun]
    exact runs_update st.runs (createdRun company source_id user_identifier st)
      { createdRun company source_id user_identifier st with
        status := .ACTIVE
        processed_files := (env.files.filter env.filename_filter).length
        finished_at := some st.now }
      rfl (fun r hr => hfresh r hr)
  · rw [hst2]
    simp only [updateIngestionRun, getIngestionSourceById, createIngestionRun]
    exact find?_sources st.sources company.id source_id src _ hfind rfl rfl

/-- C2 witness: the demo crawl yields three files, one is skipped by the
filter, the run finalizes ACTIVE with processed_files 2 and the source is
ACTIVE again. -/
theorem run_ingestion_success_witness :
    ∃ st2,
      runIngestion demoEnv demoCompany 1 "u1" demoState =
        (.ok ((demoEnv.files.filter demoEnv.filename_filter).length), st2) ∧
      st2.runs = demoState.runs ++
        [{ createdRun demoCompany 1 "u1" demoState with
           status := .ACTIVE
           processed_files := (demoEnv.files.filter demoEnv.filename_filter).length
           finished_at := some demoState.now }] ∧
      getIngestionSourceById st2 demoCompany.id 1 =
        some { demoSource with
               status := .ACTIVE
               last_error := none
               last_run_at := some demoState.now } :=
  run_ingestion_success demoEnv demoCompany 1 "u1" demoState demoSource
    "iatoolkit_storage" rfl (by decide) (by simp [demoState]) rfl (by decide)
    rfl (Or.inl rfl)

/-- C3: for every run of `run_ingestion` in which an exception is raised
after the IngestionRun was created (the source was found and was not
RUNNING, and the invocation returned that exception to the caller), the
run is finalized as ERROR with a non-empty error_message and a set
finished_at, and the source is persisted as ERROR with `last_error`
set to the same rendered message. -/
theorem run_ingestion_failure_finalizes (env : RunnerEnv) (company : Company)
    (source_id : Nat) (user_identifier : String) (st : RepoState)
    (src : IngestionSource) (e : PyError) (st2 : RepoState)
    (hfind : getIngestionSourceById st company.id source_id = some src)
    (hrun : ¬ src.status = .RUNNING)
    (hfresh : ∀ r ∈ st.runs, r.id ≠ st.next_run_id)
    (hres : runIngestion env company source_id user_identifier st =
      (.error e, st2)) :
    errString e ≠ "" ∧
    st2.runs = st.runs ++
      [{ createdRun company source_id user_identifier st with
         status := .ERROR
         error_message := some (errString e)
         finished_at := some st.now }] ∧
    getIngestionSourceById st2 company.id source_id =
      some { src with status := .ERROR, last_error := some (errString e) } := by
  rcases htrig : triggerIngestionLogic env src
      (createIngestionRun st (createdRun company source_id user_identifier st))
    with ⟨r, st2t⟩
  simp only [runIngestion, hfind, if_neg hrun, htrig] at hres
  cases r with
  | ok n => simp at hres
  | error e' =>
    obtain ⟨he, hst⟩ := Prod.mk.injEq .. ▸ hres
    have he' : e' = e := by injection he
    subst he'
    obtain ⟨docs, _, hst2⟩ := triggerIngestionLogic_error env src _ e' st2t htrig
    refine ⟨errString_ne_empty e', ?_, ?_⟩
    · rw [← hst, hst2]
      simp only [updateIngestionRun, createIngestionRun]
      exact runs_update st.runs (createdRun company source_id user_identifier st)
        { createdRun company source_id user_identifier st with
          status := .ERROR
          error_message := some (errString e')
          finished_at := some st.now }
        rfl (fun r hr => hfresh r hr)
    · rw [← hst, hst2]
      simp only [updateIngestionRun, getIngestionSourceById, createIngestionRun]
      exact find?_sources st.sources company.id source_id src _ hfind rfl rfl

/-- C3 witness: the demo failing crawl raises "boom"; the finalized run is
ERROR with the non-empty rendered message, and the source ends in ERROR
with the same `last_error`. -/
theorem run_ingestion_failure_finalizes_witness :
    errString (.exc "boom") ≠ "" ∧
    (runIngestion demoFailEnv demoCompany 1 "u1" demoState).2.runs =
      demoState.runs ++
        [{ createdRun demoCompany 1 "u1" demoState with
           status := .ERROR
           error_message := some (errString (.exc "boom"))
           finished_at := some demoState.now }] ∧
    getIngestionSourceById (runIngestion demoFailEnv demoCompany 1 "u1" demoState).2
        demoCompany.id 1 =
      some { demoSource with
             status := .ERROR
             last_error := some (errString (.exc "boom")) } :=
  run_ingestion_failure_finalizes demoFailEnv demoCompany 1 "u1" demoState
    demoSource (.exc "boom") (runIngestion demoFailEnv demoCompany 1 "u1" demoState).2
    rfl (by decide) (by simp [demoState]) rfl

/-- C7: every IngestionRun produced by `run_ingestion` is created with
status RUNNING, `triggered_by` the given user identifier and company/source
ids matching the source, and the same invocation finalizes it to exactly
one of ACTIVE (success) or ERROR (failure). -/
theorem run_ingestion_run_record_lifecycle (env : RunnerEnv)
    (company : Company) (source_id : Nat) (user_identifier : String)
    (st : RepoState) (src : IngestionSource)
    (hfind : getIngestionSourceById st company.id source_id = some src)
    (hrun : ¬ src.status = .RUNNING)
    (hfresh : ∀ r ∈ st.runs, r.id ≠ st.next_run_id) :
    (createdRun company source_id user_identifier st).status = .RUNNING ∧
    (createdRun company source_id user_identifier st).triggered_by =
      user_identifier ∧
    (createdRun company source_id user_identifier st).company_id =
      company.id ∧
    (createdRun company source_id user_identifier st).source_id = source_id ∧
    src.company_id = company.id ∧ src.id = source_id ∧
    ∃ final,
      (runIngestion env company source_id user_identifier st).2.runs =
        st.runs ++ [final] ∧
      final.id = st.next_run_id ∧
      final.triggered_by = user_identifier ∧
      final.company_id = company.id ∧
      final.source_id = source_id ∧
      (∀ n, (runIngestion env company source_id user_identifier st).1 = .ok n →
        final.status = .ACTIVE) ∧
      (∀ e, (runIngestion env company source_id user_identifier st).1 = .error e →
        final.status = .ERROR) ∧
      (final.status = .ACTIVE ∨ final.status = .ERROR) := by
  have hcs := getIngestionSourceById_some st company.id source_id src hfind
  refine ⟨rfl, rfl, rfl, rfl, hcs.1, hcs.2, ?_⟩
  rcases htrig : triggerIngestionLogic env src
      (createIngestionRun st (createdRun company source_id user_identifier st))
    with ⟨r, st2t⟩
  cases r with
  | ok n =>
    obtain ⟨docs, errs, hproc, hst2⟩ :=
      triggerIngestionLogic_ok env src _ n st2t htrig
    refine ⟨{ createdRun company source_id user_identifier st with
              status := .ACTIVE
              processed_files := n
              finished_at := some st.now }, ?_, rfl, rfl, rfl, rfl, ?_, ?_, Or.inl rfl⟩
    · simp only [runIngestion, hfind, if_neg hrun, htrig]
      rw [hst2]
      simp only [updateIngestionRun, createIngestionRun]
      exact runs_update st.runs (createdRun company source_id user_identifier st)
        { createdRun company source_id user_identifier st with
          status := .ACTIVE
          processed_files := n
          finished_at := some st.now }
        rfl (fun r hr => hfresh r hr)
    · intro k _
      rfl
    · intro e he
      simp only [runIngestion, hfind, if_neg hrun, htrig] at he
      exact absurd he (by simp)
  | error e =>
    obtain ⟨docs, _, hst2⟩ := triggerIngestionLogic_error env src _ e st2t htrig
    refine ⟨{ createdRun company source_id user_identifier st with
              status := .ERROR
              error_message := some (errString e)
              finished_at := some st.now }, ?_, rfl, rfl, rfl, rfl, ?_, ?_, Or.inr rfl⟩
    · simp only [runIngestion, hfind, if_neg hrun, htrig]
      rw [hst2]
      simp only [updateIngestionRun, createIngestionRun]
      exact runs_update st.runs (createdRun company source_id user_identifier st)
        { createdRun company source_id user_identifier st with
          status := .ERROR
          error_message := some (errString e)
          finished_at := some st.now }
        rfl (fun r hr => hfresh r hr)
    · intro n hn
      simp only [runIngestion, hfind, if_neg hrun, htrig] at hn
      exact absurd hn (by simp)
    · intro e' _
      rfl

/-- C7 witness: on the demo success run the created run is RUNNING with
`triggered_by` "u1" and matching ids, and the finalized run is ACTIVE. -/
theorem run_ingestion_run_record_lifecycle_witness :
    (createdRun demoCompany 1 "u1" demoState).status = .RUNNING ∧
    (createdRun demoCompany 1 "u1" demoState).triggered_by = "u1" ∧
    (createdRun demoCompany 1 "u1" demoState).company_id = demoCompany.id ∧
    (createdRun demoCompany 1 "u1" demoState).source_id = 1 ∧
    demoSource.company_id = demoCompany.id ∧ demoSource.id = 1 ∧
    ∃ final,
      (runIngestion demoEnv demoCompany 1 "u1" demoState).2.runs =
        demoState.runs ++ [final] ∧
      final.id = demoState.next_run_id ∧
      final.triggered_by = "u1" ∧
      final.company_id = demoCompany.id ∧
      final.source_id = 1 ∧
      (∀ n, (runIngestion demoEnv demoCompany 1 "u1" demoState).1 = .ok n →
        final.status = .ACTIVE) ∧
      (∀ e, (runIngestion demoEnv demoCompany 1 "u1" demoState).1 = .error e →
        final.status = .ERROR) ∧
      (final.status = .ACTIVE ∨ final.status = .ERROR) :=
  run_ingestion_run_record_lifecycle demoEnv demoCompany 1 "u1" demoState
    demoSource rfl (by decide) (by simp [demoState])

/-- C4: the parsing provider resolver obeys the precedence — a non-blank
per-collection `parser_provider` wins over the company-level
`parsing_provider`, which wins over the default `"auto"`; and with
resolved name `"auto"` the docling provider is returned exactly when it is
enabled and supports the request, else the legacy provider; a
non-`"auto"` name fetches that provider after alias normalization. -/
theorem parsing_provider_resolution (env : ResolverEnv) (request : ParseRequest) :
    (∀ p, resolveCollectionProviderFromDb env request.company_short_name
        request.collection_name = some p →
      resolveProviderNameForRequest env (kbConfigOf env request) request = p) ∧
    (resolveCollectionProviderFromDb env request.company_short_name
        request.collection_name = none →
      ∀ g, (kbConfigOf env request).parsing_provider = some g →
        pyStrip g ≠ "" →
        resolveProviderNameForRequest env (kbConfigOf env request) request =
          pyLower (pyStrip g)) ∧
    (resolveCollectionProviderFromDb env request.company_short_name
        request.collection_name = none →
      (∀ g, (kbConfigOf env request).parsing_provider = some g →
        pyStrip g = "") →
      resolveProviderNameForRequest env (kbConfigOf env request) request =
        "auto") ∧
    (resolveProviderNameForRequest env (kbConfigOf env request) request =
        "auto" →
      resolve env request =
        (if (env.get_provider "docling").enabled &&
            (env.get_provider "docling").supports request then
          env.get_provider "docling"
        else env.get_provider "legacy")) ∧
    (resolveProviderNameForRequest env (kbConfigOf env request) request ≠
        "auto" →
      resolve env request =
        env.get_provider (normalizeProviderAlias
          (resolveProviderNameForRequest env (kbConfigOf env request)
            request))) := by
  refine ⟨?_, ?_, ?_, ?_, ?_⟩
  · intro p hp
    simp [resolveProviderNameForRequest, hp]
  · intro hnone g hg htrim
    simp [resolveProviderNameForRequest, hnone, hg, htrim]
  · intro hnone hblank
    cases hpp : (kbConfigOf env request).parsing_provider with
    | none => simp [resolveProviderNameForRequest, hnone, hpp]
    | some g => simp [resolveProviderNameForRequest, hnone, hpp, hblank g hpp]
  · intro hauto
    simp only [kbConfigOf] at hauto
    simp [resolve, hauto]
  · intro hne
    simp only [kbConfigOf] at hne
    simp [resolve, kbConfigOf, hne]

/-- C4 witness: with a persisted collection override `" Docling "` and a
company-level `"legacy"` configuration, the override wins — the resolved
name is `"docling"` and the docling provider is fetched by name. -/
theorem parsing_provider_resolution_witness :
    resolveProviderNameForRequest demoResolverEnv
      (kbConfigOf demoResolverEnv demoRequest) demoRequest = "docling" ∧
    resolve demoResolverEnv demoRequest =
      demoResolverEnv.get_provider "docling" := by
  have h := parsing_provider_resolution demoResolverEnv demoRequest
  have hname := h.1 "docling" (by decide)
  refine ⟨hname, ?_⟩
  have h5 := h.2.2.2.2 (by rw [hname]; decide)
  rw [hname] at h5
  exact h5

/-! ## Claim about `IngestorService.load_sources` -/

/-- C9: outside community mode `load_sources` returns Python `None`
(despite its declared `-> int`) having performed no YAML sync and no
ingestion; in community mode a missing or empty `sources_to_load` raises
PARAM_NOT_FILLED, again with no work performed. -/
theorem load_sources_guards (env : LoadSourcesEnv) (company : Company)
    (sources_to_load : Option (List String)) :
    (env.is_community = false →
      ingestorLoadSources env company sources_to_load = (.ok none, [])) ∧
    (env.is_community = true → sources_to_load.getD [] = [] →
      ∃ m, ingestorLoadSources env company sources_to_load =
        (.error (.toolkit .PARAM_NOT_FILLED m), [])) := by
  constructor
  · intro h
    simp [ingestorLoadSources, h]
  · intro h hempty
    refine ⟨"Missing sources to load for company '" ++ company.short_name ++ "'.",
      ?_⟩
    simp [ingestorLoadSources, h, hempty]

/-- C9 witness: with community mode off the call returns `none` and an
empty event trace; with community mode on and no list it raises
PARAM_NOT_FILLED with an empty event trace. -/
theorem load_sources_guards_witness :
    ingestorLoadSources demoLoadEnvOff demoCompany (some ["docs"]) =
      (.ok none, []) ∧
    ∃ m, ingestorLoadSources demoLoadEnvOn demoCompany none =
      (.error (.toolkit .PARAM_NOT_FILLED m), []) :=
  ⟨(load_sources_guards demoLoadEnvOff demoCompany (some ["docs"])).1 rfl,
   (load_sources_guards demoLoadEnvOn demoCompany none).2 rfl rfl⟩

/-! ## Claim about the duplicated `sync_sources_from_yaml` implementations -/

/-- C10 counterexample: the two implementations are not equivalent.  When
FLASK_ENV is not `dev` and the `production` connector entry is present but
`None`, `IngestorService._get_base_connector_config` returns `None` and
the sync crashes with `AttributeError` on the first source, while
`LoadDocumentsService` substitutes `{}` and performs the read/write. -/
theorem sync_sources_from_yaml_not_equivalent :
    ingestorSyncSourcesFromYaml kbProdNone "production" 1 [] ≠
      loadDocumentsSyncSourcesFromYaml kbProdNone "production" 1 [] := by
  intro h
  have h1 : ingestorSyncSourcesFromYaml kbProdNone "production" 1 [] =
      Except.error "AttributeError" := rfl
  have h2 : loadDocumentsSyncSourcesFromYaml kbProdNone "production" 1 [] =
      Except.ok [SyncEvent.readSource "a",
        SyncEvent.writeSource ⟨1, "a", .S3, .ACTIVE,
          .pydict [("path", .pynone), ("folder", .pynone),
                   ("metadata", .pydict []), ("collection", .pynone)]⟩] := rfl
  rw [h1, h2] at h
  exact Except.noConfusion h

/-- The two duplicated sync loops are identical statement for statement,
hence agree on every input. -/
lemma syncLoops_agree (company_id : Nat)
    (repo : List (String × SyncIngestionSource)) (base : PyVal) :
    ∀ items, ingestorSyncLoop company_id repo base items =
      loadDocumentsSyncLoop company_id repo base items
  | [] => rfl
  | (name, config) :: rest => by
    unfold ingestorSyncLoop loadDocumentsSyncLoop
    rw [syncLoops_agree company_id repo base rest]

/-- The two `_get_base_connector_config` implementations agree in the `dev`
environment, and otherwise whenever the `production` connector entry is
absent, truthy, or the empty dictionary. -/
lemma base_connector_configs_agree (kb : PyVal) (env : String)
    (h : env = "dev" ∨ productionEntryOk kb) :
    ingestorGetBaseConnectorConfig kb env =
      loadDocumentsGetBaseConnectorConfig kb env := by
  unfold ingestorGetBaseConnectorConfig loadDocumentsGetBaseConnectorConfig
  cases hkb : kb.getDefault "connectors" (.pydict []) with
  | error s => simp [hkb, Bind.bind, Except.bind]
  | ok connectors =>
    by_cases hd : env = "dev"
    · simp [hkb, hd]
    · have hp : productionEntryOk kb := by
        rcases h with h | h
        · exact absurd h hd
        · exact h
      unfold productionEntryOk at hp
      rw [hkb] at hp
      simp only [hkb, Bind.bind, Except.bind, hd, if_false]
      cases connectors with
      | pynone => rfl
      | pystr s => rfl
      | pybool b => rfl
      | pyint n => rfl
      | pydict xs =>
        cases hl : assocLookup xs "production" with
        | none =>
          simp [PyVal.get, PyVal.getDefault, hl, hd, PyVal.truthy, pure,
            Except.pure]
        | some v =>
          simp only [hl] at hp
          simp only [PyVal.get, PyVal.getDefault, hl, hd, if_false,
            Option.getD_some]
          rcases hp with hp | hp
          · simp [hp, pure, Except.pure]
          · subst hp
            simp [PyVal.truthy, pure, Except.pure]

/-- C10 amended: given the same configuration, environment and repository
contents, the two duplicated `sync_sources_from_yaml` implementations
perform the same sequence of ingestion-source reads and writes with equal
field values whenever FLASK_ENV is `dev`, or the `production` connectors
entry is absent, truthy, or the empty dictionary — that is, whenever their
`_get_base_connector_config` helpers agree. -/
theorem sync_sources_from_yaml_equiv (kb : PyVal) (env : String)
    (company_id : Nat) (repo : List (String × SyncIngestionSource))
    (h : env = "dev" ∨ productionEntryOk kb) :
    ingestorSyncSourcesFromYaml kb env company_id repo =
      loadDocumentsSyncSourcesFromYaml kb env company_id repo := by
  unfold ingestorSyncSourcesFromYaml loadDocumentsSyncSourcesFromYaml
  rw [base_connector_configs_agree kb env h]
  simp only [syncLoops_agree]

/-- C10 witness: with a truthy `production` connector entry the two
implementations produce the same event trace outside `dev`. -/
theorem sync_sources_from_yaml_equiv_witness :
    ingestorSyncSourcesFromYaml kbProdSet "production" 1 [] =
      loadDocumentsSyncSourcesFromYaml kbProdSet "production" 1 [] :=
  sync_sources_from_yaml_equiv kbProdSet "production" 1 []
    (Or.inr (Or.inl rfl))

end IAToolkit
